import Mathlib

/-!
Shallow embedding of the multi-model reasoning pipeline
(`src/agents/consistency_agent.py`, `src/summarizer.py`, `src/orchestrator.py`).

Python `re` patterns are embedded by a small backtracking matcher (`pmatch`)
whose preference order (alternation left-first, quantifiers greedy) and
scanning order (`findIter` = `re.finditer`: leftmost, non-overlapping)
reproduce CPython's semantics for the specific patterns used by the code.
Character classes `\s` and `\d` are modelled at their ASCII meaning.
Python floats produced by `float()` on decimal literals are modelled as
exact rationals (`ℚ`); the numeric tolerance `0.01` as `1/100`.
Strings are modelled as `List Char` inside the matcher, `String` at the API.
-/

namespace MultiReasoning

/-- ASCII meaning of Python's `\s` class: space, tab, newline, CR, VT, FF. -/
def pySpace (c : Char) : Bool :=
  c == ' ' || c == '\t' || c == '\n' || c == '\r' || c == '\x0b' || c == '\x0c'

/-- Regex fragments used by the extraction patterns: literal character
classes, sequencing, alternation, greedy star over a class, greedy option,
and the (unique) capturing group. -/
inductive Pat where
  | eps
  | cls (p : Char → Bool)
  | seq (a b : Pat)
  | alt (a b : Pat)
  | star (p : Char → Bool)
  | opt (a : Pat)
  | grp (a : Pat)

/-- Remainders of consuming a greedy class-star at the front of `s`,
longest consumption first (Python's greedy preference order). -/
def starSplits (p : Char → Bool) (s : List Char) : List (List Char) :=
  let k := (s.takeWhile p).length
  (List.range (k + 1)).map (fun i => s.drop (k - i))

/-- Combine capture results inside a sequence (at most one group occurs). -/
def mergeCap : Option (List Char) → Option (List Char) → Option (List Char)
  | some c, _ => some c
  | none, c => c

/-- All ways `p` can match a prefix of `s`, as `(remainder, group-1 capture)`
pairs, listed in Python's backtracking preference order (head = the match
Python reports when anchored at this position). -/
def pmatch : Pat → List Char → List (List Char × Option (List Char))
  | .eps, s => [(s, none)]
  | .cls _, [] => []
  | .cls p, c :: s => if p c then [(s, none)] else []
  | .seq a b, s =>
      (pmatch a s).flatMap (fun pr =>
        (pmatch b pr.1).map (fun pr2 => (pr2.1, mergeCap pr.2 pr2.2)))
  | .alt a b, s => pmatch a s ++ pmatch b s
  | .star p, s => (starSplits p s).map (fun r => (r, none))
  | .opt a, s => pmatch a s ++ [(s, none)]
  | .grp a, s =>
      (pmatch a s).map (fun pr => (pr.1, some (s.take (s.length - pr.1.length))))

/-- `re.finditer`: group-1 captures of successive non-overlapping matches,
scanning left to right.  Fuel bounds the recursion; `findIter` supplies
enough for the whole string. -/
def findIterGo (p : Pat) : Nat → List Char → List (List Char)
  | 0, _ => []
  | fuel + 1, s =>
    match (pmatch p s).head? with
    | some (rest, cap) =>
        let consumed := s.length - rest.length
        cap.getD [] ::
          (if consumed == 0 then
            match s with
            | [] => []
            | _ :: t => findIterGo p fuel t
          else findIterGo p fuel rest)
    | none =>
        match s with
        | [] => []
        | _ :: t => findIterGo p fuel t

def findIter (p : Pat) (s : List Char) : List (List Char) :=
  findIterGo p (s.length + 1) s

/-- `re.search` as a boolean: does `p` match anywhere in `s`? -/
def reSearch (p : Pat) : List Char → Bool
  | [] => !(pmatch p []).isEmpty
  | c :: t => !(pmatch p (c :: t)).isEmpty || reSearch p t

/-- One character, case-insensitively (the patterns are compiled with
`re.IGNORECASE`). -/
def ichr (c : Char) : Pat := .cls (fun d => d.toLower == c.toLower)

/-- One exact character (for characters with no case). -/
def chrP (c : Char) : Pat := .cls (fun d => d == c)

/-- Case-insensitive literal word. -/
def lit (s : String) : Pat := s.data.foldr (fun c acc => .seq (ichr c) acc) .eps

def plusP (p : Char → Bool) : Pat := .seq (.cls p) (.star p)

def notDot (c : Char) : Bool := c != '.'
def notNl (c : Char) : Bool := c != '\n'

/-- `[^\.]+(?:\.[^\n]+)?` — the common tail of the marker patterns. -/
def tailPat : Pat :=
  .seq (plusP notDot) (.opt (.seq (chrP '.') (plusP notNl)))

/-- `\d+(?:\.\d+)?` -/
def numPat : Pat :=
  .seq (plusP Char.isDigit) (.opt (.seq (chrP '.') (plusP Char.isDigit)))

/-- `Final [Aa]nswer:?\s*([^\.]+(?:\.[^\n]+)?)` (IGNORECASE makes `[Aa]`
one case-insensitive letter). -/
def pat1 : Pat :=
  .seq (lit "Final answer") (.seq (.opt (chrP ':')) (.seq (.star pySpace) (.grp tailPat)))

/-- `Therefore,?\s+([^\.]+(?:\.[^\n]+)?)` -/
def pat2 : Pat :=
  .seq (lit "Therefore") (.seq (.opt (chrP ',')) (.seq (plusP pySpace) (.grp tailPat)))

/-- `Thus,?\s+([^\.]+(?:\.[^\n]+)?)` -/
def pat3 : Pat :=
  .seq (lit "Thus") (.seq (.opt (chrP ',')) (.seq (plusP pySpace) (.grp tailPat)))

/-- `In conclusion,?\s+([^\.]+(?:\.[^\n]+)?)` -/
def pat4 : Pat :=
  .seq (lit "In conclusion") (.seq (.opt (chrP ',')) (.seq (plusP pySpace) (.grp tailPat)))

/-- `The answer is:?\s+([^\.]+(?:\.[^\n]+)?)` -/
def pat5 : Pat :=
  .seq (lit "The answer is") (.seq (.opt (chrP ':')) (.seq (plusP pySpace) (.grp tailPat)))

/-- `Area\s*=\s*(\d+(?:\.\d+)?(?:\s*square units?)?)` -/
def pat6 : Pat :=
  .seq (lit "Area")
    (.seq (.star pySpace)
      (.seq (chrP '=')
        (.seq (.star pySpace)
          (.grp (.seq numPat
            (.opt (.seq (.star pySpace) (.seq (lit "square unit") (.opt (ichr 's'))))))))))

/-- `\d+\.\s*([^\.]+(?:\.[^\n]+)?)` — numbered list item. -/
def pat7 : Pat :=
  .seq (plusP Char.isDigit) (.seq (chrP '.') (.seq (.star pySpace) (.grp tailPat)))

/-- The pattern cascade, identical (order included) in
`ConsistencyAgent._extract_final_answer` and `Summarizer._extract_final_answer`. -/
def extractionPatterns : List Pat := [pat1, pat2, pat3, pat4, pat5, pat6, pat7]

/-- Python `str.strip()` (ASCII whitespace). -/
def pyStrip (s : List Char) : List Char :=
  ((s.dropWhile pySpace).reverse.dropWhile pySpace).reverse

/-- `re.sub(r'\s+', ' ', s)`: every maximal whitespace run becomes one
space.  `inRun` records whether the previous character belonged to a
whitespace run already replaced. -/
def collapseWsGo : Bool → List Char → List Char
  | _, [] => []
  | inRun, c :: rest =>
    if pySpace c then
      if inRun then collapseWsGo true rest
      else ' ' :: collapseWsGo true rest
    else c :: collapseWsGo false rest

def collapseWs (s : List Char) : List Char := collapseWsGo false s

/-- Python `str.rstrip('.')`: remove every trailing period. -/
def rstripDots (s : List Char) : List Char :=
  (s.reverse.dropWhile (fun c => c == '.')).reverse

/-- The shared post-processing applied to a captured group:
`.strip()`, collapse whitespace runs, strip trailing periods. -/
def cleanAnswer (cap : List Char) : List Char :=
  rstripDots (collapseWs (pyStrip cap))

/-- The shared pattern-cascade loop of both `_extract_final_answer`
implementations: first pattern with a match wins, last match's group 1 is
cleaned and returned. -/
def extractFrom : List Pat → List Char → Option (List Char)
  | [], _ => none
  | p :: ps, text =>
    match (findIter p text).getLast? with
    | some cap => some (cleanAnswer cap)
    | none => extractFrom ps text

/-- `ConsistencyAgent._extract_final_answer`. -/
def consistencyExtract (text : String) : Option String :=
  (extractFrom extractionPatterns text.data).map String.mk

/-- Does `p` match `s` entirely from the start (`re.search` with `^...$`
on newline-free strings)? -/
def fullMatch (p : Pat) (s : List Char) : Bool :=
  (pmatch p s).any (fun pr => pr.1.isEmpty)

/-- `square units?` (IGNORECASE). -/
def squnitPat : Pat := .seq (lit "square unit") (.opt (ichr 's'))

/-- The unit-appending step unique to `Summarizer._extract_final_answer`:
a bare-number answer gets " square units" appended unless the source text
already mentions square units. -/
def unitsAdjust (text answer : List Char) : List Char :=
  if fullMatch numPat answer && !reSearch squnitPat text then
    answer ++ (" square units").data
  else answer

/-- The cascade loop of `Summarizer._extract_final_answer` (with the
unit-appending post-step). -/
def summExtractFrom : List Pat → List Char → Option (List Char)
  | [], _ => none
  | p :: ps, text =>
    match (findIter p text).getLast? with
    | some cap => some (unitsAdjust text (cleanAnswer cap))
    | none => summExtractFrom ps text

/-- `Summarizer._extract_final_answer`. -/
def summarizerExtract (text : String) : Option String :=
  (summExtractFrom extractionPatterns text.data).map String.mk

/-! ## Data model -/

/-- A raw output: the `{"model": ..., "raw_response": ...}` dictionaries
passed between Orchestrator, ConsistencyAgent and Summarizer. -/
structure Response where
  model : String
  raw_response : String
deriving DecidableEq, Repr

/-- Python truthiness applied to an optional string: `None` and `""` are
falsy (the call sites test `if answer:` / `answer if answer else ...`). -/
def pyTruthy (o : Option String) : Option String :=
  match o with
  | some s => if s == "" then none else some s
  | none => none

/-- Digit string to a natural number. -/
def digitsToNat (l : List Char) : Nat :=
  l.foldl (fun n c => n * 10 + (c.toNat - ('0').toNat)) 0

/-- Exact value of a decimal literal `\d+(\.\d+)?` (Python's `float()`
modelled over `ℚ`): `ip.frac = (ip·10^k + frac) / 10^k`. -/
def parseDecimal (s : List Char) : ℚ :=
  let intPart := s.takeWhile Char.isDigit
  let rest := s.dropWhile Char.isDigit
  match rest with
  | '.' :: frac =>
    mkRat (digitsToNat intPart * 10 ^ frac.length + digitsToNat frac) (10 ^ frac.length)
  | _ => mkRat (digitsToNat intPart) 1

/-- Exact rational subtraction, written out over `mkRat` so that it
evaluates by kernel reduction. -/
def ratSub (x y : ℚ) : ℚ :=
  mkRat (x.num * (y.den : Int) - y.num * (x.den : Int)) (x.den * y.den)

/-- Python `abs`. -/
def pyAbs (q : ℚ) : ℚ := if Rat.blt q (mkRat 0 1) then Rat.neg q else q

/-- The tolerance `0.01` of both numeric-agreement phases. -/
def tol01 : ℚ := mkRat 1 100

/-- `abs(x - y) <= 0.01`, the numeric-agreement test. -/
def withinTol (x y : ℚ) : Bool := !(Rat.blt tol01 (pyAbs (ratSub x y)))

/-- Leftmost match of `numPat` in `s` (`re.search(r'(\d+(?:\.\d+)?)', s)`). -/
def firstNumMatch : List Char → Option (List Char)
  | [] => none
  | c :: t =>
    match (pmatch numPat (c :: t)).head? with
    | some pr => some ((c :: t).take ((c :: t).length - pr.1.length))
    | none => firstNumMatch t

/-- First unsigned decimal number found in an extracted answer, as used by
both numeric-agreement phases. -/
def firstNumber (s : String) : Option ℚ :=
  (firstNumMatch s.data).map parseDecimal

/-- Python `max(l, key=key)` on a nonempty list: the first element
attaining the maximal key (later elements replace only on strictly
greater key). -/
def pyMaxBy (key : Response → Nat) : List Response → Option Response
  | [] => none
  | r :: rs => some (rs.foldl (fun best x => if key x > key best then x else best) r)

/-! ## ConsistencyAgent

The Python locals (`final_answers`, `exact_matches`, `numerical_values`,
`matching_responses`) are top-level definitions here so that theorems can
refer to them. -/

/-- The `final_answers` list: responses with a (truthy) extracted answer,
paired with that answer. -/
def caFinalAnswers (responses : List Response) : List (Response × String) :=
  responses.filterMap (fun r =>
    (pyTruthy (consistencyExtract r.raw_response)).map (fun a => (r, a)))

/-- The `exact_matches` list: responses whose extracted answer equals the
first extracted answer. -/
def caExactMatches (responses : List Response) (first_answer : String) : List Response :=
  ((caFinalAnswers responses).filter (fun pr => pr.2 == first_answer)).map
    (fun pr => pr.1)

/-- The `numerical_values` list: surviving pairs whose answer contains a
number, with that number. -/
def caNumericalValues (responses : List Response) : List (Response × ℚ) :=
  (caFinalAnswers responses).filterMap (fun pr =>
    (firstNumber pr.2).map (fun v => (pr.1, v)))

/-- The `matching_responses` list of the numeric phase. -/
def caMatching (responses : List Response) (first_value : ℚ) : List Response :=
  ((caNumericalValues responses).filter (fun pr =>
    withinTol pr.2 first_value)).map (fun pr => pr.1)

/-- `ConsistencyAgent.analyze_model_responses`: per-backend repeat-run
consolidation.  Returns the representative response on agreement, `none`
on fewer than 2 responses or no consensus. -/
def analyze_model_responses (responses : List Response) : Option Response :=
  if responses.length < 2 then none
  else
    match (caFinalAnswers responses).head? with
    | none => none
    | some (_, first_answer) =>
      if (caExactMatches responses first_answer).length == responses.length then
        pyMaxBy (fun r => r.raw_response.length) (caExactMatches responses first_answer)
      else if (caNumericalValues responses).length == (caFinalAnswers responses).length then
        match (caNumericalValues responses).head? with
        | some (_, first_value) =>
          if (caMatching responses first_value).length == responses.length then
            pyMaxBy (fun r => r.raw_response.length) (caMatching responses first_value)
          else none
        | none => none
      else none

/-! ## Summarizer -/

/-- JSON values: the type of the Python dictionaries built by the
Summarizer and of `json.loads` results. -/
inductive Json where
  | null
  | bool (b : Bool)
  | num (q : ℚ)
  | str (s : String)
  | arr (xs : List Json)
  | obj (fields : List (String × Json))
deriving Repr

/-- Python dict lookup on the association-list model. -/
def lookupField (fields : List (String × Json)) (k : String) : Option Json :=
  (fields.find? (fun kv => kv.1 == k)).map (fun kv => kv.2)

/-- Python dict item assignment: replace in place if the key exists,
append otherwise. -/
def setField : List (String × Json) → String → Json → List (String × Json)
  | [], k, v => [(k, v)]
  | (k', v') :: rest, k, v =>
    if k' == k then (k, v) :: rest else (k', v') :: setField rest k v

/-- Python `j[k] = v`: succeeds only on a dict (`TypeError` otherwise,
modelled as `none`). -/
def jsonSetItem : Json → String → Json → Option Json
  | .obj fs, k, v => some (.obj (setField fs k v))
  | _, _, _ => none

/-- Field access on a result dictionary. -/
def jsonGet (j : Json) (k : String) : Option Json :=
  match j with
  | .obj fs => lookupField fs k
  | _ => none

/-- String projection, for comparing result fields. -/
def asStr : Option Json → Option String
  | some (.str s) => some s
  | _ => none

/-- Keys of a result dictionary, in insertion order. -/
def jsonKeys : Json → List String
  | .obj fs => fs.map (fun kv => kv.1)
  | _ => []

/-- A Python dict comprehension `{model: answer for model, answer in l}`
(insertion order, later duplicates overwrite in place). -/
def answersObj (l : List (String × String)) : Json :=
  .obj (l.foldl (fun fs p => setField fs p.1 (.str p.2)) [])

/-- `"No clear answer found"` placeholder. -/
def noClear : String := "No clear answer found"

/-- The `final_answers` list of `Summarizer._basic_analysis`: backends
whose raw text yields a (truthy) extracted answer, with that answer. -/
def basicFinalAnswers (responses : List Response) : List (String × String) :=
  responses.filterMap (fun r =>
    (pyTruthy (summarizerExtract r.raw_response)).map (fun a => (r.model, a)))

/-- The `numerical_values` list shared by the heuristic's numeric phase. -/
def numericalValues (fa : List (String × String)) : List (String × ℚ) :=
  fa.filterMap (fun p => (firstNumber p.2).map (fun v => (p.1, v)))

/-- The disagreement result at the end of `_basic_analysis` (the
fall-through return: most detailed response wins). -/
def basicDisagreement (responses : List Response) : Json :=
  match pyMaxBy (fun r => r.raw_response.length) responses with
  | none => .obj []   -- unreachable: the caller has final_answers ≠ [], so responses ≠ []
  | some best_response =>
    .obj [("status", .str "disagreement"),
          ("message", .str "Agents provided different answers"),
          ("best_answer", .str
            ((pyTruthy (summarizerExtract best_response.raw_response)).getD noClear)),
          ("confidence", .str "medium"),
          ("selected_from", .str best_response.model),
          ("reasoning", .str "Selected based on most detailed explanation and solution steps"),
          ("all_answers", answersObj (basicFinalAnswers responses))]

/-- `Summarizer._basic_analysis`: the local heuristic reducer. -/
def basic_analysis (responses : List Response) : Json :=
  match (basicFinalAnswers responses).head? with
  | none =>
    .obj [("status", .str "error"),
          ("message", .str "Could not extract clear answers from responses"),
          ("all_answers", answersObj (responses.map (fun r => (r.model, noClear))))]
  | some (_, first_answer) =>
    if ((basicFinalAnswers responses).drop 1).all (fun p => p.2 == first_answer) then
      .obj [("status", .str "agreement"),
            ("message", .str "All agents agree on the answer"),
            ("best_answer", .str first_answer),
            ("confidence", .str "high"),
            ("selected_from", .str "consensus"),
            ("reasoning", .str "All agents provided the same answer"),
            ("all_answers", answersObj (basicFinalAnswers responses))]
    else if (numericalValues (basicFinalAnswers responses)).length ==
        (basicFinalAnswers responses).length then
      match (numericalValues (basicFinalAnswers responses)).head? with
      | some (_, first_value) =>
        if ((numericalValues (basicFinalAnswers responses)).drop 1).all
            (fun p => withinTol p.2 first_value) then
          .obj [("status", .str "agreement"),
                ("message", .str "All agents agree on the numerical value"),
                ("best_answer", .str first_answer),
                ("confidence", .str "high"),
                ("selected_from", .str "consensus"),
                ("reasoning", .str "All agents provided equivalent numerical answers"),
                ("all_answers", answersObj (basicFinalAnswers responses))]
        else basicDisagreement responses
      | none => basicDisagreement responses
    else basicDisagreement responses

/-- `Summarizer.analyze_responses`.  The judge call
`await self.client.generate_response("o1", analysis_prompt)` is an
external collaborator: its reply is the `analysis` argument (`none` =
transport failure / `None`).  `json.loads` is the Python stdlib: it is
the `loads` argument (`none` = `JSONDecodeError`).  The result is
`Except`: `.error` models an uncaught Python exception (the `TypeError`
of item assignment on a non-dict). -/
def analyze_responses (loads : String → Option Json) (analysis : Option String)
    (responses : List Response) : Except String Json :=
  match responses with
  | [] =>
    .ok (.obj [("status", .str "error"),
               ("message", .str "No valid responses received from agents"),
               ("all_answers", .obj [])])
  | [r] =>
    .ok (.obj [("status", .str "single_response"),
               ("message", .str "Only one agent provided a valid response"),
               ("best_answer", .str
                 ((pyTruthy (summarizerExtract r.raw_response)).getD noClear)),
               ("confidence", .str "medium"),
               ("selected_from", .str r.model),
               ("reasoning", .str "Only one response available, using it directly"),
               ("all_answers", .obj [(r.model, .str
                 ((pyTruthy (summarizerExtract r.raw_response)).getD noClear))])])
  | _ =>
    match analysis with
    | none => .ok (basic_analysis responses)
    | some a =>
      if a == "" then .ok (basic_analysis responses)
      else
        match loads a with
        | none => .ok (basic_analysis responses)
        | some j =>
          match jsonSetItem j "all_answers" (answersObj (responses.map (fun r =>
              (r.model, (pyTruthy (summarizerExtract r.raw_response)).getD noClear)))) with
          | some j2 => .ok j2
          | none => .error "TypeError: item assignment on non-dict judge reply"

/-! ## Orchestrator -/

/-- Outcome of one generation run of one backend, after the per-run
`try`: either a parsed solution text or an absorbed failure (exception,
falsy response, `eval`/key errors). -/
inductive RunOutcome where
  | success (solution : String)
  | failure
deriving DecidableEq, Repr

/-- The per-backend `responses` list built by the generation loop. -/
def runsToResponses (model : String) (runs : List RunOutcome) : List Response :=
  runs.filterMap (fun o =>
    match o with
    | .success sol => some ⟨model, sol⟩
    | .failure => none)

/-- Python dict insertion for `model_responses[model] = best_response`. -/
def setModelResponse : List (String × Response) → String → Response → List (String × Response)
  | [], k, v => [(k, v)]
  | (k', v') :: rest, k, v =>
    if k' == k then (k, v) :: rest else (k', v') :: setModelResponse rest k v

/-- One iteration of the generation + consolidation loop: a backend with
no successful run is skipped; a backend whose runs the ConsistencyAgent
rejects is skipped with a warning; otherwise its best response is
recorded under its model id. -/
def modelStep (acc : List (String × Response)) (mr : String × List RunOutcome) :
    List (String × Response) :=
  if (runsToResponses mr.1 mr.2).isEmpty then acc
  else
    match analyze_model_responses (runsToResponses mr.1 mr.2) with
    | some best => setModelResponse acc mr.1 best
    | none => acc

/-- The `model_responses` dict after the generation + consolidation loop. -/
def modelResponses (runResults : List (String × List RunOutcome)) :
    List (String × Response) :=
  runResults.foldl modelStep []

/-- The externally visible result record of `Orchestrator.solve_problem`. -/
structure ProblemResult where
  problem : String
  agent_responses : List Response
  summary : Json
deriving Repr

/-- `Orchestrator.solve_problem`.  `runResults` holds, per configured
backend, the outcomes of its `runs_per_model` generation attempts;
`summarize` is the (awaited) `Summarizer.analyze_responses` call, with
`.error` modelling a raised exception.  The orchestrator result is
`Except`: `.error` is the raised `ValueError`. -/
def solve_problem (problem : String)
    (runResults : List (String × List RunOutcome))
    (summarize : List Response → Except String Json) :
    Except String ProblemResult :=
  let model_responses := modelResponses runResults
  if model_responses.isEmpty then
    .error "No consistent responses received from any agent"
  else
    let valid_responses := model_responses.map (fun kv => kv.2)
    match summarize valid_responses with
    | .ok summary => .ok ⟨problem, valid_responses, summary⟩
    | .error e =>
      .ok ⟨problem, valid_responses,
        .obj [("status", .str "error"),
              ("message", .str ("Error analyzing responses: " ++ e)),
              ("all_answers", answersObj (valid_responses.map (fun r =>
                 (r.model, "Response received but analysis failed"))))]⟩

/-- Modelled from the spec wording of §4.1, for comparison with the
code: among the ordered patterns, the *first* one with any match wins;
the *last* of its matches is taken and its capture post-processed
(whitespace collapsed, trailing period stripped); absent iff no pattern
matches. -/
def specExtract (pats : List Pat) (text : List Char) : Option (List Char) :=
  match pats.find? (fun p => !(findIter p text).isEmpty) with
  | some p => (findIter p text).getLast?.map cleanAnswer
  | none => none

/-- The numeric-agreement condition of `_basic_analysis`, as one
boolean: the numeric phase fires iff every surviving answer contains a
number and all numbers are within `0.01` of the first (the `none` head
case is unreachable when `fa` is nonempty and the lengths agree). -/
def basicNumericAgreement (fa : List (String × String)) : Bool :=
  (numericalValues fa).length == fa.length &&
    (match (numericalValues fa).head? with
     | some pr => ((numericalValues fa).drop 1).all (fun p => withinTol p.2 pr.2)
     | none => true)

/-- The key list of a result's `all_answers` mapping. -/
def allAnswersKeys (j : Json) : List String :=
  jsonKeys ((jsonGet j "all_answers").getD .null)

/-- The `status` field of a reduction outcome, for comparing results. -/
def resultStatus (e : Except String Json) : Option String :=
  match e with
  | .ok j => asStr (jsonGet j "status")
  | .error _ => none

/-! ## Lemmas about `max(..., key=...)` -/

/-- The fold inside `pyMaxBy` either keeps the seed (when nothing beats
it) or lands on a list element that strictly beats the seed and every
earlier element, and is not beaten by any later element. -/
lemma pyMax_go_spec (key : Response → Nat) (l : List Response) (b : Response) :
    (l.foldl (fun best x => if key x > key best then x else best) b = b ∧
      ∀ x ∈ l, key x ≤ key b) ∨
    (∃ l1 m l2, l = l1 ++ m :: l2 ∧
      l.foldl (fun best x => if key x > key best then x else best) b = m ∧
      key b < key m ∧ (∀ x ∈ l1, key x < key m) ∧ (∀ x ∈ l2, key x ≤ key m)) := by
  induction l generalizing b with
  | nil => exact Or.inl ⟨rfl, by simp⟩
  | cons x t ih =>
    simp only [List.foldl_cons]
    by_cases h : key x > key b
    · rw [if_pos h]
      rcases ih x with ⟨heq, hall⟩ | ⟨l1, m, l2, hsplit, heq, hlt, h1, h2⟩
      · exact Or.inr ⟨[], x, t, by simp, heq, h, by simp, hall⟩
      · refine Or.inr ⟨x :: l1, m, l2, by simp [hsplit], heq, h.trans hlt, ?_, h2⟩
        intro y hy
        rcases List.mem_cons.mp hy with rfl | hy
        · exact hlt
        · exact h1 y hy
    · rw [if_neg h]
      rcases ih b with ⟨heq, hall⟩ | ⟨l1, m, l2, hsplit, heq, hlt, h1, h2⟩
      · refine Or.inl ⟨heq, ?_⟩
        intro y hy
        rcases List.mem_cons.mp hy with rfl | hy
        · exact Nat.le_of_not_lt h
        · exact hall y hy
      · refine Or.inr ⟨x :: l1, m, l2, by simp [hsplit], heq, hlt, ?_, h2⟩
        intro y hy
        rcases List.mem_cons.mp hy with rfl | hy
        · exact Nat.lt_of_le_of_lt (Nat.le_of_not_lt h) hlt
        · exact h1 y hy

/-- `max(l, key=key)` returns the first element attaining the maximal
key: everything before it is strictly smaller, everything after is no
larger. -/
lemma pyMaxBy_decomp (key : Response → Nat) (l : List Response) (r : Response)
    (h : pyMaxBy key l = some r) :
    ∃ l1 l2, l = l1 ++ r :: l2 ∧ (∀ x ∈ l1, key x < key r) ∧
      (∀ x ∈ l2, key x ≤ key r) := by
  match l with
  | [] => simp [pyMaxBy] at h
  | b :: t =>
    have hfold : t.foldl (fun best x => if key x > key best then x else best) b = r := by
      simpa [pyMaxBy] using h
    rcases pyMax_go_spec key t b with ⟨heq, hall⟩ | ⟨l1, m, l2, hsplit, heq, hlt, h1, h2⟩
    · refine ⟨[], t, ?_, by simp, ?_⟩
      · rw [← hfold, heq]; simp
      · rw [← hfold, heq]; exact hall
    · have hrm : r = m := by rw [← hfold, heq]
      subst hrm
      refine ⟨b :: l1, l2, by simp [hsplit], ?_, h2⟩
      intro y hy
      rcases List.mem_cons.mp hy with rfl | hy
      · exact hlt
      · exact h1 y hy

lemma pyMaxBy_mem (key : Response → Nat) (l : List Response) (r : Response)
    (h : pyMaxBy key l = some r) : r ∈ l := by
  obtain ⟨l1, l2, hsplit, -, -⟩ := pyMaxBy_decomp key l r h
  subst hsplit
  simp

lemma pyMaxBy_isSome (key : Response → Nat) (l : List Response) (hne : l ≠ []) :
    ∃ r, pyMaxBy key l = some r := by
  match l with
  | [] => exact absurd rfl hne
  | b :: t => exact ⟨_, rfl⟩

/-! ## Membership lemmas for the consolidation lists -/

lemma caFinalAnswers_fst_mem (responses : List Response) (pr : Response × String)
    (h : pr ∈ caFinalAnswers responses) : pr.1 ∈ responses := by
  simp only [caFinalAnswers, List.mem_filterMap, Option.map_eq_some'] at h
  obtain ⟨r, hr, a, -, ha⟩ := h
  rw [← ha]
  exact hr

lemma caExactMatches_mem (responses : List Response) (fa : String) (r : Response)
    (h : r ∈ caExactMatches responses fa) : r ∈ responses := by
  simp only [caExactMatches, List.mem_map] at h
  obtain ⟨pr, hpr, hfst⟩ := h
  rw [← hfst]
  exact caFinalAnswers_fst_mem responses pr (List.mem_of_mem_filter hpr)

lemma caNumericalValues_fst_mem (responses : List Response) (pv : Response × ℚ)
    (h : pv ∈ caNumericalValues responses) : pv.1 ∈ responses := by
  simp only [caNumericalValues, List.mem_filterMap, Option.map_eq_some'] at h
  obtain ⟨pr, hpr, v, -, hv⟩ := h
  have := caFinalAnswers_fst_mem responses pr hpr
  rw [← hv]
  exact this

lemma caMatching_mem (responses : List Response) (fv : ℚ) (r : Response)
    (h : r ∈ caMatching responses fv) : r ∈ responses := by
  simp only [caMatching, List.mem_map] at h
  obtain ⟨pv, hpv, hfst⟩ := h
  rw [← hfst]
  exact caNumericalValues_fst_mem responses pv (List.mem_of_mem_filter hpv)

/-- The consolidation result, when present, is one of the input
responses (shared helper behind claim C9). -/
lemma analyze_model_responses_mem (responses : List Response) (r : Response)
    (h : analyze_model_responses responses = some r) : r ∈ responses := by
  unfold analyze_model_responses at h
  split at h
  · exact absurd h (by simp)
  · split at h
    · exact absurd h (by simp)
    · rename_i first_answer heq
      split at h
      · exact caExactMatches_mem responses first_answer r
          (pyMaxBy_mem _ _ _ h)
      · split at h
        · split at h
          · rename_i first_value hnv
            split at h
            · exact caMatching_mem responses first_value r (pyMaxBy_mem _ _ _ h)
            · exact absurd h (by simp)
          · exact absurd h (by simp)
        · exact absurd h (by simp)

lemma filterMap_eq_map_of_all_some {α β : Type} (f : α → Option β) (g : α → β)
    (l : List α) (h : ∀ x ∈ l, f x = some (g x)) : l.filterMap f = l.map g := by
  induction l with
  | nil => rfl
  | cons x t ih =>
    rw [List.filterMap_cons, h x (List.mem_cons_self x t), List.map_cons,
      ih (fun y hy => h y (List.mem_cons_of_mem x hy))]

/-! ## Claim C1 -/

/-- C1 (amended): for a sequence of at least 2 raw outputs in which
*every* output has a (truthy) extractable answer and all extracted
answers equal the first one, consolidation reports agreement and returns
the output with the longest raw text, ties broken by first-seen (the
returned element is preceded only by strictly shorter raw texts and
followed only by no-longer ones).  When some output has no extractable
answer, the agreement count `len(exact_matches) == len(responses)` can
never be reached, so the claim's "even when some of the original outputs
had no extractable answer" part fails (see the counterexample). -/
theorem claim1_exact_agreement_longest (responses : List Response) (a : String)
    (h2 : 2 ≤ responses.length)
    (hall : ∀ r ∈ responses, pyTruthy (consistencyExtract r.raw_response) = some a) :
    ∃ best l1 l2, analyze_model_responses responses = some best ∧
      responses = l1 ++ best :: l2 ∧
      (∀ x ∈ l1, x.raw_response.length < best.raw_response.length) ∧
      (∀ x ∈ l2, x.raw_response.length ≤ best.raw_response.length) := by
  have hfa : caFinalAnswers responses = responses.map (fun r => (r, a)) := by
    refine filterMap_eq_map_of_all_some _ _ _ (fun r hr => ?_)
    rw [hall r hr]
    rfl
  have hem : caExactMatches responses a = responses := by
    have hfilter : ((responses.map (fun r => (r, a))).filter
        (fun pr => pr.2 == a)) = responses.map (fun r => (r, a)) := by
      refine List.filter_eq_self.mpr (fun x hx => ?_)
      obtain ⟨r, -, rfl⟩ := List.mem_map.mp hx
      simp
    unfold caExactMatches
    rw [hfa, hfilter, List.map_map]
    show List.map id responses = responses
    exact List.map_id responses
  match responses, h2 with
  | r0 :: r1 :: t, _ =>
    have hanalyze : analyze_model_responses (r0 :: r1 :: t) =
        pyMaxBy (fun r => r.raw_response.length) (r0 :: r1 :: t) := by
      unfold analyze_model_responses
      rw [if_neg (by simp)]
      rw [hfa]
      simp only [List.map_cons, List.head?_cons]
      rw [hem]
      simp
    obtain ⟨best, hbest⟩ :=
      pyMaxBy_isSome (fun r => r.raw_response.length) (r0 :: r1 :: t) (by simp)
    obtain ⟨l1, l2, hsplit, hlt, hle⟩ := pyMaxBy_decomp _ _ _ hbest
    exact ⟨best, l1, l2, by rw [hanalyze, hbest], hsplit, hlt, hle⟩

/-- C1, part forced into the correction: with 2 exact-matching surviving
outputs and one output with no extractable answer, consolidation returns
`none` instead of the longest exact-matching output. -/
theorem claim1_counterexample :
    2 ≤ ([⟨"m", "Final answer: 6"⟩, ⟨"m", "So. Final answer: 6"⟩,
          ⟨"m", "hello"⟩] : List Response).length ∧
    pyTruthy (consistencyExtract "Final answer: 6") = some "6" ∧
    pyTruthy (consistencyExtract "So. Final answer: 6") = some "6" ∧
    pyTruthy (consistencyExtract "hello") = none ∧
    analyze_model_responses [⟨"m", "Final answer: 6"⟩,
      ⟨"m", "So. Final answer: 6"⟩, ⟨"m", "hello"⟩] = none := by
  decide

theorem claim1_witness :
    ∃ best l1 l2,
      analyze_model_responses
        [⟨"m", "Final answer: 6"⟩, ⟨"m", "So. Final answer: 6"⟩] = some best ∧
      ([⟨"m", "Final answer: 6"⟩, ⟨"m", "So. Final answer: 6"⟩] : List Response) =
        l1 ++ best :: l2 ∧
      (∀ x ∈ l1, x.raw_response.length < best.raw_response.length) ∧
      (∀ x ∈ l2, x.raw_response.length ≤ best.raw_response.length) :=
  claim1_exact_agreement_longest
    [⟨"m", "Final answer: 6"⟩, ⟨"m", "So. Final answer: 6"⟩] "6"
    (by decide) (by decide)

/-! ## Claims C7 and C3: the extractor cascade -/

lemma extractFrom_eq_spec (pats : List Pat) (text : List Char) :
    extractFrom pats text = specExtract pats text := by
  induction pats with
  | nil => rfl
  | cons p ps ih =>
    unfold extractFrom specExtract
    cases h : (findIter p text).getLast? with
    | some cap =>
      have hne : findIter p text ≠ [] := by
        intro hnil
        rw [hnil] at h
        exact Option.noConfusion h
      rw [List.find?_cons_of_pos _ (by simpa [List.isEmpty_iff] using hne)]
      simp [h]
    | none =>
      have hnil : findIter p text = [] := List.getLast?_eq_none_iff.mp h
      rw [List.find?_cons_of_neg _ (by simp [hnil])]
      exact ih

lemma summExtractFrom_eq_map (ps : List Pat) (text : List Char) :
    summExtractFrom ps text = (extractFrom ps text).map (unitsAdjust text) := by
  induction ps with
  | nil => rfl
  | cons p ps ih =>
    unfold summExtractFrom extractFrom
    cases h : (findIter p text).getLast? with
    | some cap => rfl
    | none => exact ih

lemma specExtract_eq_none_iff (pats : List Pat) (text : List Char) :
    specExtract pats text = none ↔ ∀ p ∈ pats, findIter p text = [] := by
  unfold specExtract
  cases h : pats.find? (fun p => !(findIter p text).isEmpty) with
  | some p =>
    have hp := List.find?_some h
    have hne : findIter p text ≠ [] := by
      simpa [List.isEmpty_iff] using hp
    have hmem := List.mem_of_find?_eq_some h
    simp only [Option.map_eq_none']
    constructor
    · intro hlast
      exact absurd (List.getLast?_eq_none_iff.mp hlast) hne
    · intro hall
      exact absurd (hall p hmem) hne
  | none =>
    have hall := List.find?_eq_none.mp h
    constructor
    · intro _ p hp
      have := hall p hp
      simpa [List.isEmpty_iff] using this
    · intro _
      rfl

/-- C7: both `_extract_final_answer` implementations realize the
spec'ed cascade: patterns are tried in the fixed priority order, the
first pattern with any match wins, the last match of that pattern is
taken and its capture is post-processed by `cleanAnswer` (strip,
collapse whitespace runs to one space, strip trailing periods) — the
Summarizer variant additionally applying only the unit-adjust step on
top of the same cascade — and the result is absent iff no pattern
matches. -/
theorem claim7_extractor_cascade (text : String) :
    extractFrom extractionPatterns text.data =
      specExtract extractionPatterns text.data ∧
    summExtractFrom extractionPatterns text.data =
      (specExtract extractionPatterns text.data).map (unitsAdjust text.data) ∧
    (consistencyExtract text = none ↔
      ∀ p ∈ extractionPatterns, findIter p text.data = []) ∧
    (summarizerExtract text = none ↔
      ∀ p ∈ extractionPatterns, findIter p text.data = []) := by
  have h1 := extractFrom_eq_spec extractionPatterns text.data
  have h2 := summExtractFrom_eq_map extractionPatterns text.data
  have h3 := specExtract_eq_none_iff extractionPatterns text.data
  refine ⟨h1, by rw [h2, h1], ?_, ?_⟩
  · unfold consistencyExtract
    rw [h1, Option.map_eq_none']
    exact h3
  · unfold summarizerExtract
    rw [h2, h1, Option.map_eq_none', Option.map_eq_none']
    exact h3

/-- C3 (amended): only the Summarizer's extractor appends the
`" square units"` suffix.  When the cleaned capture is a bare number
(`^\d+(\.\d+)?$`) and the source text does not mention "square units"
(case-insensitive), `Summarizer._extract_final_answer` returns the
number with the suffix appended, while
`ConsistencyAgent._extract_final_answer` returns the bare number
unchanged. -/
theorem claim3_square_units_suffix (text : String) (a : List Char)
    (hcore : extractFrom extractionPatterns text.data = some a)
    (hnum : fullMatch numPat a = true)
    (hsu : reSearch squnitPat text.data = false) :
    summarizerExtract text = some (String.mk (a ++ (" square units").data)) ∧
    consistencyExtract text = some (String.mk a) := by
  constructor
  · unfold summarizerExtract
    rw [summExtractFrom_eq_map, hcore]
    simp [unitsAdjust, hnum, hsu]
  · unfold consistencyExtract
    rw [hcore]
    rfl

/-- C3, part forced into the correction: on the spec's own example
`"... Final answer: 6."` (a bare-number capture, no "square units" in
the text) the ConsistencyAgent's extractor returns `"6"`, not
`"6 square units"`. -/
theorem claim3_counterexample :
    extractFrom extractionPatterns ("... Final answer: 6.").data = some ['6'] ∧
    fullMatch numPat ['6'] = true ∧
    reSearch squnitPat ("... Final answer: 6.").data = false ∧
    consistencyExtract "... Final answer: 6." = some "6" ∧
    ("6" : String) ≠ "6 square units" := by
  decide

theorem claim3_witness :
    summarizerExtract "... Final answer: 6." =
      some (String.mk (['6'] ++ (" square units").data)) ∧
    consistencyExtract "... Final answer: 6." = some (String.mk ['6']) :=
  claim3_square_units_suffix "... Final answer: 6." ['6']
    (by decide) (by decide) (by decide)

/-! ## Dictionary lemmas -/

lemma lookupField_setField_self (fs : List (String × Json)) (k : String) (v : Json) :
    lookupField (setField fs k v) k = some v := by
  induction fs with
  | nil => simp [setField, lookupField]
  | cons kv rest ih =>
    by_cases h : kv.1 == k
    · simp [setField, h, lookupField]
    · match kv with
      | (k', v') =>
        simp only [setField]
        rw [if_neg (by simpa using h)]
        simp only [lookupField, List.find?_cons]
        rw [show (((k', v') : String × Json).1 == k) = false by simpa using h]
        exact ih

lemma setField_of_not_mem (fs : List (String × Json)) (k : String) (v : Json)
    (h : k ∉ fs.map (fun kv => kv.1)) : setField fs k v = fs ++ [(k, v)] := by
  induction fs with
  | nil => rfl
  | cons kv rest ih =>
    simp only [List.map_cons, List.mem_cons] at h
    push_neg at h
    match kv with
    | (k', v') =>
      simp only [setField]
      rw [if_neg (by simpa using fun he => h.1 he.symm)]
      rw [ih h.2]
      rfl

lemma foldl_setField_of_nodup (l : List (String × String)) :
    ∀ (acc : List (String × Json)),
      (∀ k ∈ l.map (fun p => p.1), k ∉ acc.map (fun kv => kv.1)) →
      (l.map (fun p => p.1)).Nodup →
      l.foldl (fun fs p => setField fs p.1 (.str p.2)) acc =
        acc ++ l.map (fun p => (p.1, Json.str p.2)) := by
  induction l with
  | nil => intro acc _ _; simp
  | cons p t ih =>
    intro acc hdisj hnodup
    simp only [List.foldl_cons]
    rw [setField_of_not_mem acc p.1 (.str p.2)
      (hdisj p.1 (by simp))]
    rw [ih (acc ++ [(p.1, Json.str p.2)]) ?_ ?_]
    · simp
    · intro k hk
      simp only [List.map_append, List.mem_append, List.map_cons] at *
      push_neg
      constructor
      · exact hdisj k (by simp [hk])
      · simp only [List.map_nil, List.mem_singleton]
        intro he
        exact (List.nodup_cons.mp hnodup).1 (he ▸ hk)
    · exact (List.nodup_cons.mp hnodup).2

/-- With pairwise-distinct keys, the dict comprehension keeps the pairs
in order. -/
lemma answersObj_of_nodup (l : List (String × String))
    (h : (l.map (fun p => p.1)).Nodup) :
    answersObj l = .obj (l.map (fun p => (p.1, Json.str p.2))) := by
  unfold answersObj
  rw [foldl_setField_of_nodup l [] (by simp) h]
  rfl

lemma jsonKeys_answersObj (l : List (String × String))
    (h : (l.map (fun p => p.1)).Nodup) :
    jsonKeys (answersObj l) = l.map (fun p => p.1) := by
  rw [answersObj_of_nodup l h]
  simp [jsonKeys]

/-- The surviving (extracting) backends form a subsequence of all
backends, so their ids inherit distinctness. -/
lemma basicFinalAnswers_fst_sublist (responses : List Response) :
    ((basicFinalAnswers responses).map (fun p => p.1)).Sublist
      (responses.map (fun r => r.model)) := by
  induction responses with
  | nil => simp [basicFinalAnswers]
  | cons r t ih =>
    simp only [basicFinalAnswers, List.filterMap_cons, List.map_cons]
    cases hx : (pyTruthy (summarizerExtract r.raw_response)).map
        (fun a => (r.model, a)) with
    | none => exact ih.cons r.model
    | some p =>
      obtain ⟨a, -, rfl⟩ := Option.map_eq_some'.mp hx
      simpa using ih.cons₂ r.model

/-! ## Claim C2 -/

/-- C2 (amended): `all_answers` has one entry per input backend in the
empty, single-response, and judge-success outcomes, and in the
no-extractable-answer error outcome of the heuristic reducer; but in the
heuristic agreement / numeric-agreement / disagreement outcomes it
contains exactly the backends whose raw text yielded a (truthy)
extracted answer — backends with no extractable answer are omitted
(see the counterexample). -/
theorem claim2_all_answers_coverage (loads : String → Option Json)
    (analysis : Option String) (responses : List Response)
    (hnodup : (responses.map (fun r => r.model)).Nodup) :
    (responses = [] →
      ∃ j, analyze_responses loads analysis responses = .ok j ∧
        allAnswersKeys j = responses.map (fun r => r.model)) ∧
    (∀ r, responses = [r] →
      ∃ j, analyze_responses loads analysis responses = .ok j ∧
        allAnswersKeys j = responses.map (fun r => r.model)) ∧
    (∀ a fs, 2 ≤ responses.length → analysis = some a → a ≠ "" →
      loads a = some (.obj fs) →
      ∃ j, analyze_responses loads analysis responses = .ok j ∧
        allAnswersKeys j = responses.map (fun r => r.model)) ∧
    (basicFinalAnswers responses = [] →
      allAnswersKeys (basic_analysis responses) =
        responses.map (fun r => r.model)) ∧
    (basicFinalAnswers responses ≠ [] →
      allAnswersKeys (basic_analysis responses) =
        (basicFinalAnswers responses).map (fun p => p.1)) := by
  have hfanodup : ((basicFinalAnswers responses).map (fun p => p.1)).Nodup :=
    hnodup.sublist (basicFinalAnswers_fst_sublist responses)
  refine ⟨?_, ?_, ?_, ?_, ?_⟩
  · rintro rfl
    exact ⟨_, rfl, rfl⟩
  · rintro r rfl
    exact ⟨_, rfl, rfl⟩
  · intro a fs h2 ha hne hl
    subst ha
    match responses, h2, hnodup with
    | r1 :: r2 :: t, _, hnodup =>
      have hbeq : (a == "") = false := beq_eq_false_iff_ne.mpr hne
      refine ⟨.obj (setField fs "all_answers"
        (answersObj ((r1 :: r2 :: t).map (fun r =>
          (r.model, (pyTruthy (summarizerExtract r.raw_response)).getD noClear))))),
        ?_, ?_⟩
      · simp only [analyze_responses, hbeq, hl]
        rfl
      · show jsonKeys ((lookupField (setField fs "all_answers" _)
          "all_answers").getD .null) = _
        rw [lookupField_setField_self]
        show jsonKeys (answersObj _) = _
        rw [jsonKeys_answersObj _ (by rw [List.map_map]; exact hnodup)]
        rw [List.map_map]
        rfl
  · intro hempty
    have hh : (basicFinalAnswers responses).head? = none := by
      rw [hempty]
      rfl
    have hb : basic_analysis responses =
        .obj [("status", .str "error"),
              ("message", .str "Could not extract clear answers from responses"),
              ("all_answers", answersObj (responses.map (fun r => (r.model, noClear))))] := by
      unfold basic_analysis
      rw [hh]
    rw [hb]
    show jsonKeys (answersObj (responses.map (fun r => (r.model, noClear)))) = _
    rw [jsonKeys_answersObj _ (by rw [List.map_map]; exact hnodup)]
    rw [List.map_map]
    rfl
  · intro hne
    cases hfa : (basicFinalAnswers responses).head? with
    | none => exact absurd (List.head?_eq_none_iff.mp hfa) hne
    | some p =>
      have hrne : responses ≠ [] := by
        intro h
        rw [h] at hne
        exact hne rfl
      obtain ⟨pm, pa⟩ := p
      have hdis : allAnswersKeys (basicDisagreement responses) =
          (basicFinalAnswers responses).map (fun q => q.1) := by
        unfold basicDisagreement
        obtain ⟨best, hbest⟩ :=
          pyMaxBy_isSome (fun r => r.raw_response.length) responses hrne
        rw [hbest]
        show jsonKeys (answersObj (basicFinalAnswers responses)) = _
        exact jsonKeys_answersObj _ hfanodup
      unfold basic_analysis
      rw [hfa]
      simp only []
      split
      · exact jsonKeys_answersObj _ hfanodup
      · split
        · split
          · split
            · exact jsonKeys_answersObj _ hfanodup
            · exact hdis
          · exact hdis
        · exact hdis

/-- C2, part forced into the correction: with backend "a" extracting and
backend "b" not, the judge-failure fallback lands in the heuristic
agreement branch and its `all_answers` has no entry for "b". -/
theorem claim2_counterexample :
    analyze_responses (fun _ => none) none
      [⟨"a", "Final answer: 6"⟩, ⟨"b", "xyzzy"⟩] =
      .ok (basic_analysis [⟨"a", "Final answer: 6"⟩, ⟨"b", "xyzzy"⟩]) ∧
    asStr (jsonGet (basic_analysis
      [⟨"a", "Final answer: 6"⟩, ⟨"b", "xyzzy"⟩]) "status") = some "agreement" ∧
    ("b" : String) ∈ ([⟨"a", "Final answer: 6"⟩, ⟨"b", "xyzzy"⟩] :
      List Response).map (fun r => r.model) ∧
    allAnswersKeys (basic_analysis
      [⟨"a", "Final answer: 6"⟩, ⟨"b", "xyzzy"⟩]) = ["a"] ∧
    ("b" : String) ∉ allAnswersKeys (basic_analysis
      [⟨"a", "Final answer: 6"⟩, ⟨"b", "xyzzy"⟩]) := by
  refine ⟨rfl, rfl, by decide, by decide, by decide⟩

theorem claim2_witness :
    (∃ j, analyze_responses
        (fun s => if s == "{}" then some (.obj []) else none) (some "{}")
        [⟨"a", "Final answer: 6"⟩, ⟨"b", "xyzzy"⟩] = .ok j ∧
      allAnswersKeys j = ["a", "b"]) ∧
    allAnswersKeys (basic_analysis [⟨"a", "zip"⟩, ⟨"b", "zap"⟩]) = ["a", "b"] ∧
    allAnswersKeys (basic_analysis [⟨"a", "Final answer: 6"⟩, ⟨"b", "xyzzy"⟩]) =
      ["a"] := by
  refine ⟨?_, ?_, ?_⟩
  · obtain ⟨j, hj, hk⟩ :=
      (claim2_all_answers_coverage
        (fun s => if s == "{}" then some (.obj []) else none) (some "{}")
        [⟨"a", "Final answer: 6"⟩, ⟨"b", "xyzzy"⟩] (by decide)).2.2.1
        "{}" [] (by decide) rfl (by decide) rfl
    exact ⟨j, hj, hk⟩
  · exact (claim2_all_answers_coverage (fun _ => none) none
      [⟨"a", "zip"⟩, ⟨"b", "zap"⟩] (by decide)).2.2.2.1 (by decide)
  · have h := (claim2_all_answers_coverage (fun _ => none) none
      [⟨"a", "Final answer: 6"⟩, ⟨"b", "xyzzy"⟩] (by decide)).2.2.2.2
      (by decide)
    rw [h]
    decide

/-! ## Claim C4 -/

/-- C4 (amended): with 2 or more consolidated answers, whenever the
judge call fails (`None` reply or empty output) or its reply is not
syntactically valid JSON, `analyze_responses` returns exactly the local
heuristic reducer's result.  Schema conformance of a syntactically valid
reply is *not* checked: any parsed JSON object is accepted as-is (plus
the locally recomputed `all_answers`), see the counterexample. -/
theorem claim4_judge_failure_fallback (loads : String → Option Json)
    (analysis : Option String) (responses : List Response)
    (h2 : 2 ≤ responses.length)
    (hfail : analysis = none ∨
      ∃ a, analysis = some a ∧ (a = "" ∨ loads a = none)) :
    analyze_responses loads analysis responses = .ok (basic_analysis responses) := by
  match responses, h2 with
  | r1 :: r2 :: t, _ =>
    rcases hfail with rfl | ⟨a, rfl, hcase⟩
    · rfl
    · rcases hcase with rfl | hl
      · rfl
      · cases hbe : (a == "") with
        | true =>
          have : a = "" := eq_of_beq hbe
          subst this
          rfl
        | false =>
          simp only [analyze_responses, hbe, hl]
          rw [if_neg (by simp)]

/-- C4, part forced into the correction: a judge reply `"{}"` is valid
JSON but cannot be parsed into the expected schema (it has none of the
required fields), yet the result is *not* the heuristic reducer's — the
empty object is accepted and only `all_answers` is added. -/
theorem claim4_counterexample :
    (fun s => if s == "{}" then some (Json.obj []) else none) "{}" =
      some (Json.obj []) ∧
    lookupField [] "status" = none ∧
    analyze_responses (fun s => if s == "{}" then some (Json.obj []) else none)
      (some "{}") [⟨"a", "Final answer: 6"⟩, ⟨"b", "xyzzy"⟩] ≠
      .ok (basic_analysis [⟨"a", "Final answer: 6"⟩, ⟨"b", "xyzzy"⟩]) := by
  refine ⟨rfl, rfl, ?_⟩
  intro h
  have h2 := congrArg resultStatus h
  rw [show resultStatus (analyze_responses
      (fun s => if s == "{}" then some (Json.obj []) else none)
      (some "{}") [⟨"a", "Final answer: 6"⟩, ⟨"b", "xyzzy"⟩]) = none from rfl,
    show resultStatus (Except.ok (basic_analysis
      [⟨"a", "Final answer: 6"⟩, ⟨"b", "xyzzy"⟩])) = some "agreement" from rfl] at h2
  exact Option.noConfusion h2

theorem claim4_witness :
    analyze_responses (fun _ => none) none
      [⟨"a", "Final answer: cat"⟩, ⟨"b", "Final answer: dog"⟩] =
      .ok (basic_analysis
        [⟨"a", "Final answer: cat"⟩, ⟨"b", "Final answer: dog"⟩]) :=
  claim4_judge_failure_fallback (fun _ => none) none
    [⟨"a", "Final answer: cat"⟩, ⟨"b", "Final answer: dog"⟩]
    (by decide) (Or.inl rfl)

/-! ## Claim C8 -/

/-- C8: when the local heuristic reducer extracts at least one answer
but finds neither exact-match nor numeric agreement, the result has
status `disagreement`, confidence `medium`, `best_answer` the extracted
answer of the input with the longest raw text (placeholder if that input
does not extract), and `selected_from` that input's backend id; "longest,
first-seen" is witnessed by the decomposition around `best`. -/
theorem claim8_disagreement_most_detailed (responses : List Response)
    (m0 : String) (a0 : String)
    (h2 : 2 ≤ responses.length)
    (hhead : (basicFinalAnswers responses).head? = some (m0, a0))
    (hneq : ((basicFinalAnswers responses).drop 1).all
      (fun p => p.2 == a0) = false)
    (hnum : basicNumericAgreement (basicFinalAnswers responses) = false) :
    ∃ best l1 l2,
      responses = l1 ++ best :: l2 ∧
      (∀ x ∈ l1, x.raw_response.length < best.raw_response.length) ∧
      (∀ x ∈ l2, x.raw_response.length ≤ best.raw_response.length) ∧
      asStr (jsonGet (basic_analysis responses) "status") = some "disagreement" ∧
      asStr (jsonGet (basic_analysis responses) "confidence") = some "medium" ∧
      asStr (jsonGet (basic_analysis responses) "best_answer") =
        some ((pyTruthy (summarizerExtract best.raw_response)).getD noClear) ∧
      asStr (jsonGet (basic_analysis responses) "selected_from") = some best.model := by
  have hne : responses ≠ [] := by
    intro h
    rw [h] at h2
    simp at h2
  obtain ⟨best, hbest⟩ :=
    pyMaxBy_isSome (fun r => r.raw_response.length) responses hne
  obtain ⟨l1, l2, hsplit, hlt, hle⟩ := pyMaxBy_decomp _ _ _ hbest
  have hres : basic_analysis responses = basicDisagreement responses := by
    unfold basic_analysis
    rw [hhead]
    show (if ((basicFinalAnswers responses).drop 1).all (fun p => p.2 == a0)
      then _ else _) = _
    rw [hneq]
    show (if (numericalValues (basicFinalAnswers responses)).length ==
        (basicFinalAnswers responses).length then _ else _) = _
    unfold basicNumericAgreement at hnum
    cases hlen : ((numericalValues (basicFinalAnswers responses)).length ==
        (basicFinalAnswers responses).length) with
    | false => simp [hlen]
    | true =>
      rw [hlen, Bool.true_and] at hnum
      rw [if_pos rfl]
      cases hnv : (numericalValues (basicFinalAnswers responses)).head? with
      | none => rfl
      | some pr =>
        rw [hnv] at hnum
        have hnum2 : ((numericalValues (basicFinalAnswers responses)).drop 1).all
            (fun p => withinTol p.2 pr.2) = false := hnum
        show (if ((numericalValues (basicFinalAnswers responses)).drop 1).all
            (fun p => withinTol p.2 pr.2) = true then _ else _) = _
        rw [hnum2]
        simp
  have hdis : basicDisagreement responses =
      .obj [("status", .str "disagreement"),
            ("message", .str "Agents provided different answers"),
            ("best_answer", .str
              ((pyTruthy (summarizerExtract best.raw_response)).getD noClear)),
            ("confidence", .str "medium"),
            ("selected_from", .str best.model),
            ("reasoning", .str "Selected based on most detailed explanation and solution steps"),
            ("all_answers", answersObj (basicFinalAnswers responses))] := by
    unfold basicDisagreement
    rw [hbest]
  refine ⟨best, l1, l2, hsplit, hlt, hle, ?_, ?_, ?_, ?_⟩ <;>
    rw [hres, hdis] <;> rfl

theorem claim8_witness :
    ∃ best l1 l2,
      ([⟨"a", "Final answer: cat"⟩, ⟨"b", "Final answer: dog sound"⟩] :
        List Response) = l1 ++ best :: l2 ∧
      (∀ x ∈ l1, x.raw_response.length < best.raw_response.length) ∧
      (∀ x ∈ l2, x.raw_response.length ≤ best.raw_response.length) ∧
      asStr (jsonGet (basic_analysis
        [⟨"a", "Final answer: cat"⟩, ⟨"b", "Final answer: dog sound"⟩])
        "status") = some "disagreement" ∧
      asStr (jsonGet (basic_analysis
        [⟨"a", "Final answer: cat"⟩, ⟨"b", "Final answer: dog sound"⟩])
        "confidence") = some "medium" ∧
      asStr (jsonGet (basic_analysis
        [⟨"a", "Final answer: cat"⟩, ⟨"b", "Final answer: dog sound"⟩])
        "best_answer") =
        some ((pyTruthy (summarizerExtract best.raw_response)).getD noClear) ∧
      asStr (jsonGet (basic_analysis
        [⟨"a", "Final answer: cat"⟩, ⟨"b", "Final answer: dog sound"⟩])
        "selected_from") = some best.model :=
  claim8_disagreement_most_detailed
    [⟨"a", "Final answer: cat"⟩, ⟨"b", "Final answer: dog sound"⟩]
    "a" "cat" (by decide) (by decide) (by decide) (by decide)

/-! ## Orchestrator lemmas -/

lemma modelStep_skip (acc : List (String × Response)) (mr : String × List RunOutcome)
    (h : runsToResponses mr.1 mr.2 = [] ∨
      analyze_model_responses (runsToResponses mr.1 mr.2) = none) :
    modelStep acc mr = acc := by
  unfold modelStep
  rcases h with h | h
  · rw [h]
    rfl
  · rw [h]
    cases (runsToResponses mr.1 mr.2).isEmpty <;> rfl

lemma foldl_modelStep_skip (l : List (String × List RunOutcome))
    (hall : ∀ mr ∈ l, runsToResponses mr.1 mr.2 = [] ∨
      analyze_model_responses (runsToResponses mr.1 mr.2) = none) :
    ∀ acc, l.foldl modelStep acc = acc := by
  induction l with
  | nil => intro acc; rfl
  | cons mr t ih =>
    intro acc
    rw [List.foldl_cons, modelStep_skip acc mr (hall mr (List.mem_cons_self mr t))]
    exact ih (fun x hx => hall x (List.mem_cons_of_mem mr hx)) acc

lemma runsToResponses_model (m : String) (runs : List RunOutcome) :
    ∀ r ∈ runsToResponses m runs, r.model = m := by
  intro r hr
  simp only [runsToResponses, List.mem_filterMap] at hr
  obtain ⟨o, -, ho⟩ := hr
  cases o with
  | success sol =>
    simp only at ho
    rw [← Option.some.injEq] at ho
    cases ho
    rfl
  | failure => exact Option.noConfusion ho

lemma setModelResponse_mem (acc : List (String × Response)) (k : String)
    (v : Response) (kv : String × Response)
    (h : kv ∈ setModelResponse acc k v) : kv ∈ acc ∨ kv = (k, v) := by
  induction acc with
  | nil =>
    simp only [setModelResponse, List.mem_singleton] at h
    exact Or.inr h
  | cons kv' rest ih =>
    match kv' with
    | (k', v') =>
      simp only [setModelResponse] at h
      by_cases hk : (k' == k)
      · rw [if_pos hk] at h
        rcases List.mem_cons.mp h with rfl | h
        · exact Or.inr rfl
        · exact Or.inl (List.mem_cons_of_mem _ h)
      · rw [if_neg hk] at h
        rcases List.mem_cons.mp h with rfl | h
        · exact Or.inl (List.mem_cons_self _ _)
        · rcases ih h with h | h
          · exact Or.inl (List.mem_cons_of_mem _ h)
          · exact Or.inr h

lemma setModelResponse_keys_mem (acc : List (String × Response)) (k : String)
    (v : Response) (x : String)
    (h : x ∈ (setModelResponse acc k v).map (fun kv => kv.1)) :
    x ∈ acc.map (fun kv => kv.1) ∨ x = k := by
  obtain ⟨kv, hkv, rfl⟩ := List.mem_map.mp h
  rcases setModelResponse_mem acc k v kv hkv with h | rfl
  · exact Or.inl (List.mem_map_of_mem _ h)
  · exact Or.inr rfl

lemma setModelResponse_keys_nodup (acc : List (String × Response)) (k : String)
    (v : Response) (h : (acc.map (fun kv => kv.1)).Nodup) :
    ((setModelResponse acc k v).map (fun kv => kv.1)).Nodup := by
  induction acc with
  | nil => simp [setModelResponse]
  | cons kv' rest ih =>
    match kv' with
    | (k', v') =>
      simp only [List.map_cons, List.nodup_cons] at h
      simp only [setModelResponse]
      by_cases hk : (k' == k)
      · rw [if_pos hk]
        simp only [List.map_cons, List.nodup_cons]
        exact ⟨by rw [← show k' = k from eq_of_beq hk]; exact h.1, h.2⟩
      · rw [if_neg hk]
        simp only [List.map_cons, List.nodup_cons]
        refine ⟨fun hx => ?_, ih h.2⟩
        rcases setModelResponse_keys_mem rest k v k' hx with hx | hx
        · exact h.1 hx
        · exact hk (by rw [hx]; exact beq_self_eq_true k)

/-- Invariant of the consolidation loop: the key list of
`model_responses` stays duplicate-free and each stored response carries
its key as its model. -/
lemma foldl_modelStep_invariant (l : List (String × List RunOutcome)) :
    ∀ acc, (acc.map (fun kv => kv.1)).Nodup →
      (∀ kv ∈ acc, kv.2.model = kv.1) →
      ((l.foldl modelStep acc).map (fun kv => kv.1)).Nodup ∧
        (∀ kv ∈ l.foldl modelStep acc, kv.2.model = kv.1) := by
  induction l with
  | nil => intro acc h1 h2; exact ⟨h1, h2⟩
  | cons mr t ih =>
    intro acc h1 h2
    rw [List.foldl_cons]
    refine ih (modelStep acc mr) ?_ ?_
    · unfold modelStep
      split
      · exact h1
      · split
        · exact setModelResponse_keys_nodup acc mr.1 _ h1
        · exact h1
    · unfold modelStep
      split
      · exact h2
      · split
        · rename_i best hbest
          intro kv hkv
          rcases setModelResponse_mem acc mr.1 best kv hkv with h | rfl
          · exact h2 kv h
          · exact runsToResponses_model mr.1 mr.2 best
              (analyze_model_responses_mem _ best hbest)
        · exact h2

lemma modelResponses_keys_nodup (runResults : List (String × List RunOutcome)) :
    ((modelResponses runResults).map (fun kv => kv.1)).Nodup :=
  (foldl_modelStep_invariant runResults [] (by simp) (by simp)).1

lemma modelResponses_model_eq_key (runResults : List (String × List RunOutcome)) :
    ∀ kv ∈ modelResponses runResults, kv.2.model = kv.1 :=
  (foldl_modelStep_invariant runResults [] (by simp) (by simp)).2

/-- The surviving consolidated answers have pairwise distinct model ids. -/
lemma modelResponses_values_models_nodup (runResults : List (String × List RunOutcome)) :
    (((modelResponses runResults).map (fun kv => kv.2)).map
      (fun r => r.model)).Nodup := by
  rw [List.map_map]
  have heq : (modelResponses runResults).map ((fun r => r.model) ∘ (fun kv => kv.2)) =
      (modelResponses runResults).map (fun kv => kv.1) :=
    List.map_congr_left (fun kv hkv => modelResponses_model_eq_key runResults kv hkv)
  rw [heq]
  exact modelResponses_keys_nodup runResults

/-! ## Claim C5 -/

/-- C5: when every backend either has no successful generation run or
its runs fail the consistency check, `solve_problem` raises the terminal
"No consistent responses received from any agent" error and no
`ProblemResult` is returned. -/
theorem claim5_no_consensus_error (problem : String)
    (runResults : List (String × List RunOutcome))
    (summarize : List Response → Except String Json)
    (hall : ∀ mr ∈ runResults, runsToResponses mr.1 mr.2 = [] ∨
      analyze_model_responses (runsToResponses mr.1 mr.2) = none) :
    solve_problem problem runResults summarize =
      .error "No consistent responses received from any agent" := by
  have hm : modelResponses runResults = [] :=
    foldl_modelStep_skip runResults hall []
  unfold solve_problem
  rw [hm]
  rfl

theorem claim5_witness :
    solve_problem "p"
      [("o1", [.failure, .failure, .failure]),
       ("gemini", [.success "Final answer: cat", .success "Final answer: dog",
          .failure])]
      (fun rs => .ok (basic_analysis rs)) =
      .error "No consistent responses received from any agent" :=
  claim5_no_consensus_error "p" _ _ (by decide)

/-! ## Claim C6 -/

/-- C6: when at least one backend survives consolidation and the
reduction step raises, `solve_problem` still returns a `ProblemResult`
whose summary has status `error`, whose `all_answers` holds exactly one
placeholder entry per surviving backend, and whose `agent_responses`
preserves the surviving consolidated answers unchanged. -/
theorem claim6_reduction_failure_best_effort (problem : String)
    (runResults : List (String × List RunOutcome))
    (summarize : List Response → Except String Json) (e : String)
    (hne : modelResponses runResults ≠ [])
    (herr : summarize ((modelResponses runResults).map (fun kv => kv.2)) =
      .error e) :
    ∃ pr, solve_problem problem runResults summarize = .ok pr ∧
      pr.problem = problem ∧
      pr.agent_responses = (modelResponses runResults).map (fun kv => kv.2) ∧
      asStr (jsonGet pr.summary "status") = some "error" ∧
      asStr (jsonGet pr.summary "message") =
        some ("Error analyzing responses: " ++ e) ∧
      jsonGet pr.summary "all_answers" =
        some (.obj (((modelResponses runResults).map (fun kv => kv.2)).map
          (fun r => (r.model, Json.str "Response received but analysis failed")))) := by
  have hie : (modelResponses runResults).isEmpty = false := by
    cases hm : modelResponses runResults with
    | nil => exact absurd hm hne
    | cons kv t => rfl
  have hsolve : solve_problem problem runResults summarize =
      .ok ⟨problem, (modelResponses runResults).map (fun kv => kv.2),
        .obj [("status", .str "error"),
              ("message", .str ("Error analyzing responses: " ++ e)),
              ("all_answers", answersObj
                (((modelResponses runResults).map (fun kv => kv.2)).map (fun r =>
                  (r.model, "Response received but analysis failed"))))]⟩ := by
    simp only [solve_problem, hie, Bool.false_eq_true, if_false, herr]
  refine ⟨_, hsolve, rfl, rfl, rfl, rfl, ?_⟩
  show some (answersObj _) = _
  rw [answersObj_of_nodup _ (by
    rw [List.map_map]
    exact modelResponses_values_models_nodup runResults)]
  rw [List.map_map]
  rfl

theorem claim6_witness :
    ∃ pr, solve_problem "p"
      [("o1", [.success "Final answer: 6", .success "Final answer: 6",
        .failure])] (fun _ => .error "boom") = .ok pr ∧
      pr.problem = "p" ∧
      pr.agent_responses = (modelResponses
        [("o1", [.success "Final answer: 6", .success "Final answer: 6",
          .failure])]).map (fun kv => kv.2) ∧
      asStr (jsonGet pr.summary "status") = some "error" ∧
      asStr (jsonGet pr.summary "message") =
        some ("Error analyzing responses: " ++ "boom") ∧
      jsonGet pr.summary "all_answers" =
        some (.obj (((modelResponses
          [("o1", [.success "Final answer: 6", .success "Final answer: 6",
            .failure])]).map (fun kv => kv.2)).map
          (fun r => (r.model, Json.str "Response received but analysis failed")))) :=
  claim6_reduction_failure_best_effort "p"
    [("o1", [.success "Final answer: 6", .success "Final answer: 6", .failure])]
    (fun _ => .error "boom") "boom" (by decide) rfl

/-! ## Claim C9 -/

/-- C9: for every input sequence of raw outputs, consolidation
(`ConsistencyAgent.analyze_model_responses`) returns either absent or one
element of its input sequence unchanged — it never synthesizes a new
record and never modifies any field (the returned record is equal, as a
record, to a member of the input). -/
theorem claim9_consolidation_returns_member (responses : List Response) :
    analyze_model_responses responses = none ∨
    ∃ r, r ∈ responses ∧ analyze_model_responses responses = some r := by
  cases h : analyze_model_responses responses with
  | none => exact Or.inl rfl
  | some r => exact Or.inr ⟨r, analyze_model_responses_mem responses r h, rfl⟩

/-! ## Claim C10 -/

/-- C10: both numeric-agreement phases reduce an extracted answer to the
first unsigned decimal number in it, ignoring a minus sign and later
numbers (`firstNumber "-6" = 6`, `firstNumber "6 and 7" = 6`); hence on
raw outputs extracting to "-6" and "6", run consolidation reports
agreement (returns a representative) and the cross-backend heuristic
reports numerical agreement, although the stated values differ. -/
theorem claim10_minus_sign_ignored :
    consistencyExtract "Final answer: -6" = some "-6" ∧
    consistencyExtract "Final answer: 6" = some "6" ∧
    firstNumber "-6" = some 6 ∧
    firstNumber "6" = some 6 ∧
    firstNumber "6 and 7" = some 6 ∧
    analyze_model_responses
      [⟨"m", "Final answer: -6"⟩, ⟨"m", "Final answer: 6"⟩] =
      some ⟨"m", "Final answer: -6"⟩ ∧
    summarizerExtract "Final answer: -6" = some "-6" ∧
    asStr (jsonGet (basic_analysis
      [⟨"a", "Final answer: -6"⟩, ⟨"b", "Final answer: 6"⟩]) "status") =
      some "agreement" ∧
    asStr (jsonGet (basic_analysis
      [⟨"a", "Final answer: -6"⟩, ⟨"b", "Final answer: 6"⟩]) "message") =
      some "All agents agree on the numerical value" := by
  refine ⟨by decide, by decide, by decide, by decide, by decide, by decide,
    by decide, ?_, ?_⟩ <;> rfl

end MultiReasoning
